import Mathlib

/-!
# Verification of the billeasy-task job lifecycle and retry subsystem

A shallow embedding of the file-processing pipeline: the relational data
model (`File`, `Job` rows from `prisma/schema.prisma`), the Bull task queue
(an external collaborator, modelled from the spec's queue contract), the
queue service (`src/queue/queue.service.ts`), the worker
(`FileProcessingProcessor.handleFileProcessing` in
`src/upload/upload.module.ts`) and the upload service's file-level retry
(`UploadService.retryFailedJob` in `upload.service.ts`).

Conventions of the embedding:
* database ids and user ids are `Nat` (the code round-trips them between
  `Int` columns and decimal strings via `parseInt`/`toString`; only
  equality of ids is ever consulted, so the string side is elided);
* timestamps (`Date.now()`, `new Date()`) are `Nat` clock values supplied
  by the caller, strictly positive;
* async methods become pure functions returning `state × Except err α`;
  a thrown `Error(msg)` becomes `Except.error` of an enum value naming
  that message;
* Prisma's `findFirst` without `orderBy` is modelled as first match in
  insertion (primary-key) order, `findFirst` with `orderBy` as the
  extremal row in that order.
-/

namespace Billeasy

/-! ## Relational data model (prisma/schema.prisma) -/

/-- `enum FileStatus` from the Prisma schema. -/
inductive FileStatus where
  | uploaded
  | processing
  | processed
  | failed
deriving DecidableEq, Repr

/-- `enum JobStatus` from the Prisma schema. -/
inductive JobStatus where
  | queued
  | processing
  | completed
  | failed
deriving DecidableEq, Repr

/-- A row of `model File` (fields this subsystem reads or writes). -/
structure FileRec where
  id : Nat
  userId : Nat
  originalFilename : String
  storagePath : String
  status : FileStatus
  extractedData : Option String
deriving DecidableEq, Repr

/-- A row of `model Job`. -/
structure JobRec where
  id : Nat
  fileId : Nat
  jobType : Option String
  status : JobStatus
  errorMessage : Option String
  startedAt : Nat
  completedAt : Option Nat
deriving DecidableEq, Repr

/-- The relational store: `files` and `jobs` tables in insertion order,
plus the next autoincrement id for `jobs`. -/
structure Db where
  files : List FileRec
  jobs : List JobRec
  nextJobId : Nat
deriving DecidableEq, Repr

/-! ## Bull task queue model

The queue engine (Bull over Redis) is an external collaborator, not code
of this repository. It is modelled from the spec's queue contract: tasks
carry a payload, an attempt counter and a terminal outcome in
waiting/active/completed/failed; `retry` re-enters a failed task into the
waiting set. The Bull job fields the service code reads
(`data`, `attemptsMade`, `failedReason`, `finishedOn`, `processedOn`)
are carried verbatim. -/

/-- Bull task state buckets, as listed by
`getWaiting`/`getActive`/`getCompleted`/`getFailed`. -/
inductive TaskState where
  | waiting
  | active
  | completed
  | failed
deriving DecidableEq, Repr

/-- `FileProcessingJobData` (queue.service.ts): the task payload. -/
structure TaskData where
  filename : String
  filepath : String
  userId : Nat
  fileId : Option Nat
deriving DecidableEq, Repr

/-- Bull backoff types used by this code base. -/
inductive BackoffType where
  | exponential
  | fixed
deriving DecidableEq, Repr

/-- Bull job options: `attempts` and the backoff policy. -/
structure TaskOpts where
  attempts : Nat
  backoffType : BackoffType
  backoffDelay : Nat
deriving DecidableEq, Repr

/-- A Bull job handle with the fields the repository's services consult. -/
structure Task where
  id : Nat
  data : TaskData
  state : TaskState
  attemptsMade : Nat
  failedReason : Option String
  finishedOn : Option Nat
  processedOn : Option Nat
  opts : TaskOpts
deriving DecidableEq, Repr

/-- The queue's own store: all tasks, plus the next task id. -/
structure QueueState where
  tasks : List Task
  nextId : Nat
deriving DecidableEq, Repr

/-- JavaScript truthiness of a nullable number field (`job.finishedOn`):
`null`/`undefined` and `0` are falsy. -/
def truthyNum : Option Nat → Bool
  | none => false
  | some n => n != 0

/-- JavaScript truthiness of a nullable string field (`job.failedReason`):
`null`/`undefined` and the empty string are falsy. -/
def truthyStr : Option String → Bool
  | none => false
  | some s => s != ""

namespace QueueState

/-- Bull `queue.getJob(id)`. -/
def getJob (q : QueueState) (jobId : Nat) : Option Task :=
  q.tasks.find? (fun t => t.id == jobId)

/-- Bull `queue.getWaiting()`. -/
def getWaiting (q : QueueState) : List Task :=
  q.tasks.filter (fun t => t.state == TaskState.waiting)

/-- Bull `queue.getActive()`. -/
def getActive (q : QueueState) : List Task :=
  q.tasks.filter (fun t => t.state == TaskState.active)

/-- Bull `queue.getCompleted()`. -/
def getCompleted (q : QueueState) : List Task :=
  q.tasks.filter (fun t => t.state == TaskState.completed)

/-- Bull `queue.getFailed()`. -/
def getFailed (q : QueueState) : List Task :=
  q.tasks.filter (fun t => t.state == TaskState.failed)

end QueueState

/-- Modelled from the spec: the effect of Bull's `job.retry()` on a failed
task — it re-enters the waiting set ("a retried task re-enters at current
time"; "retrying one in the failed state transitions it to
waiting/active"), clearing the terminal failure fields. -/
def retryEffect (t : Task) : Task :=
  { t with state := TaskState.waiting, failedReason := none, finishedOn := none }

/-- Apply `retryEffect` to the task with the given id. -/
def QueueState.retryOne (q : QueueState) (jobId : Nat) : QueueState :=
  { q with tasks := q.tasks.map (fun t => if t.id == jobId then retryEffect t else t) }

/-! ## QueueService (queue.service.ts) -/

/-- The error messages `QueueService` methods throw, as an enum. -/
inductive QueueErr where
  /-- `Error('Job not found')` -/
  | jobNotFound
  /-- `Error('Access denied: You can only retry your own jobs')` -/
  | accessDenied
  /-- `Error('Job is not in a failed state')` -/
  | notFailedState
  /-- rejection of the `Promise.all` over a batch of `job.retry()` calls -/
  | retryBatchFailed
deriving DecidableEq, Repr

/-- `QueueService.addFileProcessingJob`: enqueue a `process-file` task with
`attempts: 3` and `backoff: { type: 'exponential', delay: 2000 }`.
Returns the new queue state and the created Bull job. -/
def addFileProcessingJob (q : QueueState) (data : TaskData) : QueueState × Task :=
  let job : Task :=
    { id := q.nextId
      data := data
      state := TaskState.waiting
      attemptsMade := 0
      failedReason := none
      finishedOn := none
      processedOn := none
      opts := { attempts := 3, backoffType := BackoffType.exponential, backoffDelay := 2000 } }
  ({ tasks := q.tasks ++ [job], nextId := q.nextId + 1 }, job)

/-- Modelled from the spec: the delay Bull's backoff policy schedules
before the retry that follows `n` previous failed attempts — exponential
starts at the base delay and doubles per attempt. -/
def backoffDelayAfter (o : TaskOpts) (n : Nat) : Nat :=
  match o.backoffType with
  | BackoffType.exponential => o.backoffDelay * 2 ^ n
  | BackoffType.fixed => o.backoffDelay

/-- Queue status counts plus the detail projections the service returns. -/
structure QueueStatus where
  waiting : Nat
  active : Nat
  completed : Nat
  failed : Nat
  detailsWaiting : List (Nat × TaskData)
  detailsActive : List (Nat × TaskData)
  detailsFailed : List (Nat × TaskData × Option String × Nat)
deriving DecidableEq, Repr

/-- `QueueService.getFileProcessingQueueStatus` (unscoped): counts and
details over every bucket of the queue. -/
def getFileProcessingQueueStatus (q : QueueState) : QueueStatus :=
  let waiting := q.getWaiting
  let active := q.getActive
  let completed := q.getCompleted
  let failed := q.getFailed
  { waiting := waiting.length
    active := active.length
    completed := completed.length
    failed := failed.length
    detailsWaiting := waiting.map (fun j => (j.id, j.data))
    detailsActive := active.map (fun j => (j.id, j.data))
    detailsFailed := failed.map (fun j => (j.id, j.data, j.failedReason, j.attemptsMade)) }

/-- `QueueService.getQueueStatusForUser`: each bucket filtered by
`job.data.userId === userId` before counting and detailing. -/
def getQueueStatusForUser (q : QueueState) (userId : Nat) : QueueStatus :=
  let userWaiting := q.getWaiting.filter (fun t => t.data.userId == userId)
  let userActive := q.getActive.filter (fun t => t.data.userId == userId)
  let userCompleted := q.getCompleted.filter (fun t => t.data.userId == userId)
  let userFailed := q.getFailed.filter (fun t => t.data.userId == userId)
  { waiting := userWaiting.length
    active := userActive.length
    completed := userCompleted.length
    failed := userFailed.length
    detailsWaiting := userWaiting.map (fun j => (j.id, j.data))
    detailsActive := userActive.map (fun j => (j.id, j.data))
    detailsFailed := userFailed.map (fun j => (j.id, j.data, j.failedReason, j.attemptsMade)) }

/-- `QueueService.retryFailedJob(jobId)`: look the job up; the guard is the
JavaScript truthiness test `job.finishedOn && job.failedReason`; on success
`job.retry()` re-queues the task and `{ jobId }` is returned. -/
def retryFailedJob (q : QueueState) (jobId : Nat) : QueueState × Except QueueErr Nat :=
  match q.getJob jobId with
  | none => (q, Except.error QueueErr.jobNotFound)
  | some job =>
    if truthyNum job.finishedOn && truthyStr job.failedReason then
      (q.retryOne jobId, Except.ok job.id)
    else
      (q, Except.error QueueErr.notFailedState)

/-- `QueueService.retryFailedJobForUser(jobId, userId)`: as
`retryFailedJob`, but first the ownership check
`job.data.userId !== userId` rejects with access denied. -/
def retryFailedJobForUser (q : QueueState) (jobId userId : Nat) :
    QueueState × Except QueueErr Nat :=
  match q.getJob jobId with
  | none => (q, Except.error QueueErr.jobNotFound)
  | some job =>
    if job.data.userId != userId then
      (q, Except.error QueueErr.accessDenied)
    else if truthyNum job.finishedOn && truthyStr job.failedReason then
      (q.retryOne jobId, Except.ok job.id)
    else
      (q, Except.error QueueErr.notFailedState)

/-- `QueueService.retryAllFailedJobsForUser(userId)`: filter the failed
bucket by `job.data.userId === userId`, eagerly start `job.retry()` on each
match, and `await Promise.all` the batch. The parameter `ok` models which
individual `retry()` calls succeed (an engine-level rejection, e.g. a Redis
error): every match with a succeeding retry is re-queued — the promises are
created before any is awaited — but `Promise.all` rejects, and the method
throws instead of returning the count, as soon as any one of them fails. -/
def retryAllFailedJobsForUser (q : QueueState) (userId : Nat) (ok : Task → Bool) :
    QueueState × Except QueueErr Nat :=
  ({ q with
      tasks := q.tasks.map (fun t =>
        if (t.state == TaskState.failed && t.data.userId == userId) && ok t then
          retryEffect t
        else t) },
    if (q.getFailed.filter (fun t => t.data.userId == userId)).all ok then
      Except.ok (q.getFailed.filter (fun t => t.data.userId == userId)).length
    else
      Except.error QueueErr.retryBatchFailed)

/-! ## Database operations (Prisma calls made by worker and services) -/

namespace Db

/-- `prisma.file.findFirst({ where: { storagePath, userId } })`:
first match in insertion order. -/
def findFileByPathUser (db : Db) (filepath : String) (userId : Nat) : Option FileRec :=
  db.files.find? (fun f => f.storagePath == filepath && f.userId == userId)

/-- `prisma.file.findUnique`-style lookup by primary key (first match in
insertion order). -/
def findFileById (db : Db) (fileId : Nat) : Option FileRec :=
  db.files.find? (fun f => f.id == fileId)

/-- `prisma.file.update({ where: { id }, data: { status } })`. -/
def updateFileStatus (db : Db) (fileId : Nat) (s : FileStatus) : Db :=
  { db with files := db.files.map (fun f => if f.id == fileId then { f with status := s } else f) }

/-- `prisma.file.update({ where: { id }, data: { status, extractedData } })`
(the worker's success path). -/
def updateFileStatusData (db : Db) (fileId : Nat) (s : FileStatus) (ed : Option String) : Db :=
  { db with
    files := db.files.map (fun f =>
      if f.id == fileId then { f with status := s, extractedData := ed } else f) }

/-- `prisma.job.create`: append a row with the next autoincrement id. -/
def createJob (db : Db) (fileId : Nat) (jobType : Option String) (status : JobStatus)
    (errorMessage : Option String) (startedAt : Nat) (completedAt : Option Nat) :
    Db × JobRec :=
  let j : JobRec :=
    { id := db.nextJobId, fileId := fileId, jobType := jobType, status := status
      errorMessage := errorMessage, startedAt := startedAt, completedAt := completedAt }
  ({ db with jobs := db.jobs ++ [j], nextJobId := db.nextJobId + 1 }, j)

/-- `prisma.job.findFirst({ where: { fileId } })` — no `orderBy`, so the
first row for the file in insertion (primary-key) order. -/
def findFirstJobForFile (db : Db) (fileId : Nat) : Option JobRec :=
  db.jobs.find? (fun j => j.fileId == fileId)

/-- `prisma.job.update({ where: { id }, data: ... })` with the fields set
by the caller expressed as a row transformer. -/
def updateJobById (db : Db) (jobId : Nat) (upd : JobRec → JobRec) : Db :=
  { db with jobs := db.jobs.map (fun j => if j.id == jobId then upd j else j) }

/-- All `Job` rows of one file, in insertion order. -/
def jobsForFile (db : Db) (fileId : Nat) : List JobRec :=
  db.jobs.filter (fun j => j.fileId == fileId)

end Db

/-- The row Prisma's `orderBy: { startedAt: 'desc' }, take: 1` selects: the
job with maximal `startedAt`, earliest-inserted on ties (a stable
descending sort keeps insertion order among equal keys). -/
def mostRecent (jobs : List JobRec) : Option JobRec :=
  jobs.foldl
    (fun acc j =>
      match acc with
      | none => some j
      | some a => if j.startedAt > a.startedAt then some j else some a)
    none

/-- The most recent `Job` row of a file by start time. -/
def Db.mostRecentJobForFile (db : Db) (fileId : Nat) : Option JobRec :=
  mostRecent (db.jobsForFile fileId)

/-! ## Worker (FileProcessingProcessor.handleFileProcessing) -/

/-- The worker's `catch` block (upload.module.ts, error-handling path):
re-query the file by `storagePath`+`userId`; if present, set
`File.status = 'failed'`, then `prisma.job.findFirst({ where: { fileId } })`
— update that row to failed with the error message and a completed-at
timestamp if one exists, otherwise create a fresh failed row. -/
def workerFailurePath (db : Db) (now : Nat) (data : TaskData) (msg : String) : Db :=
  match db.findFileByPathUser data.filepath data.userId with
  | none => db
  | some fileRecord =>
    let db1 := db.updateFileStatus fileRecord.id FileStatus.failed
    match db1.findFirstJobForFile fileRecord.id with
    | some existingJob =>
      db1.updateJobById existingJob.id (fun j =>
        { j with status := JobStatus.failed, errorMessage := some msg, completedAt := some now })
    | none =>
      (db1.createJob fileRecord.id (some "file-processing") JobStatus.failed
        (some msg) now (some now)).1

/-- `FileProcessingProcessor.handleFileProcessing`: one worker invocation
on a dequeued task. `outcome` is the result of the pluggable processing
unit (`processFile`): extracted data serialized to a blob, or a thrown
error's message. The `try` block finds the file (throwing
`File record not found ...` if absent), marks it `processing`, creates a
`processing` job row, runs the unit, and on success marks file
`processed` + job `completed`; any thrown error runs the `catch` block
(`workerFailurePath`) and is rethrown to the queue. -/
def handleFileProcessing (db : Db) (now : Nat) (data : TaskData)
    (outcome : Except String String) : Db × Except String String :=
  match db.findFileByPathUser data.filepath data.userId with
  | none =>
    let msg := "File record not found for path: " ++ data.filepath
    (workerFailurePath db now data msg, Except.error msg)
  | some fileRecord =>
    let db1 := db.updateFileStatus fileRecord.id FileStatus.processing
    let created := db1.createJob fileRecord.id (some "file-processing") JobStatus.processing
      none now none
    match outcome with
    | Except.ok extractedData =>
      let db3 := created.1.updateFileStatusData fileRecord.id FileStatus.processed
        (some extractedData)
      let db4 := db3.updateJobById created.2.id (fun j =>
        { j with status := JobStatus.completed, completedAt := some now })
      (db4, Except.ok extractedData)
    | Except.error msg =>
      (workerFailurePath created.1 now data msg, Except.error msg)

/-- A sequence of worker invocations on the same task payload, one per
queue delivery, at strictly increasing clock times. -/
def workerRun (db : Db) (data : TaskData) (t : Nat) :
    List (Except String String) → Db
  | [] => db
  | o :: os => workerRun (handleFileProcessing db t data o).1 data (t + 1) os

/-! ## UploadService file-level retry (upload.service.ts) and its
controller mapping (upload.controller.ts) -/

/-- The error messages `UploadService.retryFailedJob` throws. -/
inductive UploadErr where
  /-- `Error('File not found or access denied')` — thrown both when no
  file with the id exists and when it belongs to another user. -/
  | fileNotFoundOrAccessDenied
  /-- `Error('No failed jobs found for this file')` -/
  | noFailedJobs
deriving DecidableEq, Repr

/-- The value `UploadService.retryFailedJob` resolves with. -/
structure FileRetryOk where
  jobId : Nat
  fileId : Nat
deriving DecidableEq, Repr

/-- Combined system state threaded through the upload service: the
relational store plus the queue's store. -/
structure SysState where
  db : Db
  queue : QueueState
deriving DecidableEq, Repr

/-- `UploadService.retryFailedJob(fileId, userId)`:
`prisma.file.findFirst({ where: { id, userId }, include: { jobs: {
where: { status: 'failed' }, orderBy: { startedAt: 'desc' }, take: 1 } } })`.
No match throws the combined not-found/access-denied error; an empty
included list (no failed job at all for the file) throws the no-failed-jobs
error; otherwise the file's status is reset to `uploaded` and a fresh
processing task for the same file is enqueued. -/
def retryFileJob (st : SysState) (fileId userId : Nat) :
    SysState × Except UploadErr FileRetryOk :=
  match st.db.files.find? (fun f => f.id == fileId && f.userId == userId) with
  | none => (st, Except.error UploadErr.fileNotFoundOrAccessDenied)
  | some file =>
    let failedJobs :=
      (st.db.jobs.filter (fun j => j.fileId == file.id && j.status == JobStatus.failed))
    if failedJobs.isEmpty then
      (st, Except.error UploadErr.noFailedJobs)
    else
      let db' := st.db.updateFileStatus file.id FileStatus.uploaded
      let enq := addFileProcessingJob st.queue
        { filename := file.originalFilename
          filepath := file.storagePath
          userId := userId
          fileId := some file.id }
      ({ db := db', queue := enq.1 }, Except.ok { jobId := enq.2.id, fileId := file.id })

/-- HTTP error kinds `UploadController.retryFailedJob` surfaces. -/
inductive HttpErr where
  | forbidden
  | badRequest
deriving DecidableEq, Repr

/-- `UploadController.retryFailedJob` (upload.controller.ts): the catch
clause maps `'File not found or access denied'` to `ForbiddenException`
and `'No failed jobs found for this file'` to `BadRequestException`. -/
def retryFileJobEndpoint (st : SysState) (fileId userId : Nat) :
    SysState × Except HttpErr FileRetryOk :=
  let r := retryFileJob st fileId userId
  (r.1,
    match r.2 with
    | Except.ok v => Except.ok v
    | Except.error UploadErr.fileNotFoundOrAccessDenied => Except.error HttpErr.forbidden
    | Except.error UploadErr.noFailedJobs => Except.error HttpErr.badRequest)

/-! ## General helper lemmas -/

/-- `find?` commutes with a map that preserves the predicate. -/
theorem find?_map_pres {α : Type} (l : List α) (p : α → Bool) (g : α → α) (x : α)
    (hpres : ∀ a, p (g a) = p a) (h : l.find? p = some x) :
    (l.map g).find? p = some (g x) := by
  induction l with
  | nil => simp at h
  | cons a l ih =>
    by_cases ha : p a = true
    · rw [List.find?_cons_of_pos _ ha] at h
      cases h
      simp only [List.map_cons]
      rw [List.find?_cons_of_pos]
      rw [hpres]; exact ha
    · rw [List.find?_cons_of_neg _ (by simpa using ha)] at h
      simp only [List.map_cons]
      rw [List.find?_cons_of_neg]
      · exact ih h
      · rw [hpres]; simpa using ha

/-- Scoped filter lengths over the distinct key values present in a list
partition the list's length. -/
theorem sum_scoped_filter_eq_length {α : Type} [DecidableEq α] (l : List α) (f : α → Nat) :
    ∑ u ∈ (l.map f).toFinset, (l.filter (fun t => f t == u)).length = l.length := by
  have hcount : ∀ u : Nat, (l.filter (fun t => f t == u)).length = (l.map f).count u := by
    intro u
    rw [← List.countP_eq_length_filter, List.count, List.countP_map]
    rfl
  calc ∑ u ∈ (l.map f).toFinset, (l.filter (fun t => f t == u)).length
      = ∑ u ∈ (l.map f).toFinset, (l.map f).count u := by
        exact Finset.sum_congr rfl (fun u _ => hcount u)
    _ = (l.map f).length := by
        have h := Multiset.toFinset_sum_count_eq ((l.map f : List Nat) : Multiset Nat)
        simp only [Multiset.coe_count, Multiset.coe_card, List.toFinset_coe] at h
        exact h
    _ = l.length := List.length_map l f

/-! ## Claim theorems -/

/-- **C8.** Every task enqueued via `addFileProcessingJob` is configured
with a maximum of 3 attempts and an exponential backoff policy with base
delay 2000 ms that doubles per attempt. -/
theorem addFileProcessingJob_backoff_config (q : QueueState) (data : TaskData) :
    (addFileProcessingJob q data).2 ∈ (addFileProcessingJob q data).1.tasks
    ∧ (addFileProcessingJob q data).2.opts.attempts = 3
    ∧ (addFileProcessingJob q data).2.opts.backoffType = BackoffType.exponential
    ∧ backoffDelayAfter (addFileProcessingJob q data).2.opts 0 = 2000
    ∧ ∀ n : Nat,
        backoffDelayAfter (addFileProcessingJob q data).2.opts (n + 1)
          = 2 * backoffDelayAfter (addFileProcessingJob q data).2.opts n := by
  refine ⟨?_, rfl, rfl, rfl, ?_⟩
  · simp [addFileProcessingJob]
  · intro n
    show 2000 * 2 ^ (n + 1) = 2 * (2000 * 2 ^ n)
    ring

/-- **C6.** For every queue state and every bucket, the scoped
`getQueueStatusForUser` count is at most the unscoped
`getFileProcessingQueueStatus` count, and summing the scoped counts over
all distinct owner ids present in the bucket yields exactly the unscoped
count of that bucket. -/
theorem queueStatus_scoped_le_and_partition (q : QueueState) (userId : Nat) :
    ((getQueueStatusForUser q userId).waiting ≤ (getFileProcessingQueueStatus q).waiting
      ∧ (getQueueStatusForUser q userId).active ≤ (getFileProcessingQueueStatus q).active
      ∧ (getQueueStatusForUser q userId).completed ≤ (getFileProcessingQueueStatus q).completed
      ∧ (getQueueStatusForUser q userId).failed ≤ (getFileProcessingQueueStatus q).failed)
    ∧ ((∑ u ∈ (q.getWaiting.map (fun t => t.data.userId)).toFinset,
          (getQueueStatusForUser q u).waiting = (getFileProcessingQueueStatus q).waiting)
      ∧ (∑ u ∈ (q.getActive.map (fun t => t.data.userId)).toFinset,
          (getQueueStatusForUser q u).active = (getFileProcessingQueueStatus q).active)
      ∧ (∑ u ∈ (q.getCompleted.map (fun t => t.data.userId)).toFinset,
          (getQueueStatusForUser q u).completed = (getFileProcessingQueueStatus q).completed)
      ∧ (∑ u ∈ (q.getFailed.map (fun t => t.data.userId)).toFinset,
          (getQueueStatusForUser q u).failed = (getFileProcessingQueueStatus q).failed)) := by
  refine ⟨⟨?_, ?_, ?_, ?_⟩, ?_, ?_, ?_, ?_⟩
  · exact List.length_filter_le _ _
  · exact List.length_filter_le _ _
  · exact List.length_filter_le _ _
  · exact List.length_filter_le _ _
  · exact sum_scoped_filter_eq_length q.getWaiting (fun t => t.data.userId)
  · exact sum_scoped_filter_eq_length q.getActive (fun t => t.data.userId)
  · exact sum_scoped_filter_eq_length q.getCompleted (fun t => t.data.userId)
  · exact sum_scoped_filter_eq_length q.getFailed (fun t => t.data.userId)

/-- Well-formedness of a Bull task's terminal bookkeeping fields: a task
sits in the failed bucket exactly when it finished with a (truthy) failure
reason. This is the queue engine's invariant that the service guard
`job.finishedOn && job.failedReason` relies on; every failure recorded by
this repository's worker carries a non-empty message. -/
def wfTask (t : Task) : Prop :=
  t.state = TaskState.failed ↔ (truthyNum t.finishedOn = true ∧ truthyStr t.failedReason = true)

instance (t : Task) : Decidable (wfTask t) := by
  unfold wfTask; infer_instance

/-- **C2.** Task-level retry with a mismatched owner always yields
access-denied and performs no mutation: the queue state is returned
untouched, so the task keeps its bucket and attempt count. -/
theorem retryTask_owner_mismatch_denied (q : QueueState) (jobId userId : Nat) (t : Task)
    (hfind : q.getJob jobId = some t) (hmis : t.data.userId ≠ userId) :
    retryFailedJobForUser q jobId userId = (q, Except.error QueueErr.accessDenied)
    ∧ (retryFailedJobForUser q jobId userId).1.getJob jobId = some t := by
  have h1 : retryFailedJobForUser q jobId userId = (q, Except.error QueueErr.accessDenied) := by
    unfold retryFailedJobForUser
    rw [hfind]
    simp [bne_iff_ne, hmis]
  exact ⟨h1, by rw [h1]; exact hfind⟩

/-- **C5.** `QueueService.retryFailedJob` yields the not-failed-state error
whenever the task is not in the failed bucket; when it is failed, the retry
re-enters it into the waiting bucket — never directly into completed. -/
theorem retryFailedJob_state_discipline (q : QueueState) (t : Task)
    (hfind : q.getJob t.id = some t) (hwf : wfTask t) :
    (t.state ≠ TaskState.failed →
      retryFailedJob q t.id = (q, Except.error QueueErr.notFailedState))
    ∧ (t.state = TaskState.failed →
      (retryFailedJob q t.id).2 = Except.ok t.id
      ∧ (retryFailedJob q t.id).1.getJob t.id = some (retryEffect t)
      ∧ (retryEffect t).state = TaskState.waiting
      ∧ (retryEffect t).state ≠ TaskState.completed) := by
  constructor
  · intro hne
    have hguard : (truthyNum t.finishedOn && truthyStr t.failedReason) = false := by
      rcases Bool.eq_false_or_eq_true (truthyNum t.finishedOn && truthyStr t.failedReason) with
        h | h
      · exact absurd (hwf.mpr (by simpa [Bool.and_eq_true] using h)) hne
      · exact h
    unfold retryFailedJob
    rw [hfind]
    simp [hguard]
  · intro hfailed
    have hguard : (truthyNum t.finishedOn && truthyStr t.failedReason) = true := by
      rcases hwf.mp hfailed with ⟨h1, h2⟩
      simp [h1, h2]
    have hres : retryFailedJob q t.id = (q.retryOne t.id, Except.ok t.id) := by
      unfold retryFailedJob
      rw [hfind]
      simp [hguard]
    refine ⟨by rw [hres], ?_, rfl, by simp [retryEffect]⟩
    rw [hres]
    show (q.retryOne t.id).getJob t.id = some (retryEffect t)
    unfold QueueState.retryOne QueueState.getJob
    have hpres : ∀ a : Task,
        ((if a.id == t.id then retryEffect a else a).id == t.id) = (a.id == t.id) := by
      intro a
      by_cases h : a.id = t.id
      · simp [h, retryEffect]
      · simp [h]
    have := find?_map_pres q.tasks (fun a => a.id == t.id)
      (fun a => if a.id == t.id then retryEffect a else a) t hpres hfind
    simpa using this

/-- **C10.** When no file carries the requested id, and equally when the
file exists but belongs to a different owner, the file-level retry fails
with one and the same error — surfaced by the controller as forbidden —
and neither the database nor the queue is touched. -/
theorem retryFileJob_unowned_indistinguishable (st : SysState) (fileId userId : Nat)
    (h : ∀ f ∈ st.db.files, f.id = fileId → f.userId ≠ userId) :
    retryFileJob st fileId userId = (st, Except.error UploadErr.fileNotFoundOrAccessDenied)
    ∧ retryFileJobEndpoint st fileId userId = (st, Except.error HttpErr.forbidden) := by
  have hnone : st.db.files.find? (fun f => f.id == fileId && f.userId == userId) = none := by
    rw [List.find?_eq_none]
    intro f hf hcontra
    simp only [Bool.and_eq_true, beq_iff_eq] at hcontra
    exact h f hf hcontra.1 hcontra.2
  have h1 : retryFileJob st fileId userId
      = (st, Except.error UploadErr.fileNotFoundOrAccessDenied) := by
    unfold retryFileJob
    rw [hnone]
  refine ⟨h1, ?_⟩
  unfold retryFileJobEndpoint
  rw [h1]

/-! ### Concrete fixtures for counterexamples and witnesses -/

/-- The Bull options every task of this system is created with. -/
def defOpts : TaskOpts :=
  { attempts := 3, backoffType := BackoffType.exponential, backoffDelay := 2000 }

/-- A failed task of owner 3 (fixture). -/
def tFx1 : Task :=
  { id := 1
    data := { filename := "a.txt", filepath := "uploads/a.txt", userId := 3, fileId := some 7 }
    state := TaskState.failed
    attemptsMade := 3
    failedReason := some "boom"
    finishedOn := some 50
    processedOn := some 40
    opts := defOpts }

/-- A queue holding just `tFx1` (fixture). -/
def qFx1 : QueueState := { tasks := [tFx1], nextId := 2 }

theorem retryTask_owner_mismatch_denied_witness :
    retryFailedJobForUser qFx1 1 9 = (qFx1, Except.error QueueErr.accessDenied)
    ∧ (retryFailedJobForUser qFx1 1 9).1.getJob 1 = some tFx1 :=
  retryTask_owner_mismatch_denied qFx1 1 9 tFx1 (by decide) (by decide)

theorem retryFailedJob_state_discipline_witness :
    (retryFailedJob qFx1 1).2 = Except.ok 1
    ∧ (retryFailedJob qFx1 1).1.getJob 1 = some (retryEffect tFx1)
    ∧ (retryEffect tFx1).state = TaskState.waiting
    ∧ (retryEffect tFx1).state ≠ TaskState.completed :=
  (retryFailedJob_state_discipline qFx1 tFx1 (by decide) (by decide)).2 (by decide)

/-- An owned file of user 1 (fixture). -/
def fFx1 : FileRec :=
  { id := 1, userId := 1, originalFilename := "a.txt", storagePath := "uploads/a.txt"
    status := FileStatus.failed, extractedData := none }

/-- System state holding just `fFx1` and an empty queue (fixture). -/
def stFx1 : SysState :=
  { db := { files := [fFx1], jobs := [], nextJobId := 0 }
    queue := { tasks := [], nextId := 0 } }

theorem retryFileJob_unowned_indistinguishable_witness :
    (retryFileJob stFx1 5 1 = (stFx1, Except.error UploadErr.fileNotFoundOrAccessDenied)
      ∧ retryFileJobEndpoint stFx1 5 1 = (stFx1, Except.error HttpErr.forbidden))
    ∧ (retryFileJob stFx1 1 2 = (stFx1, Except.error UploadErr.fileNotFoundOrAccessDenied)
      ∧ retryFileJobEndpoint stFx1 1 2 = (stFx1, Except.error HttpErr.forbidden)) :=
  ⟨retryFileJob_unowned_indistinguishable stFx1 5 1 (by decide),
    retryFileJob_unowned_indistinguishable stFx1 1 2 (by decide)⟩

/-! ### C3: batch retry -/

/-- A second failed task of owner 1 (fixture). -/
def tFx2 : Task :=
  { id := 1
    data := { filename := "b.txt", filepath := "uploads/b.txt", userId := 1, fileId := some 8 }
    state := TaskState.failed
    attemptsMade := 3
    failedReason := some "bad format"
    finishedOn := some 60
    processedOn := some 55
    opts := defOpts }

/-- A third failed task of owner 1 (fixture). -/
def tFx3 : Task :=
  { id := 2
    data := { filename := "c.txt", filepath := "uploads/c.txt", userId := 1, fileId := some 9 }
    state := TaskState.failed
    attemptsMade := 3
    failedReason := some "io error"
    finishedOn := some 70
    processedOn := some 65
    opts := defOpts }

/-- A queue with two failed tasks of owner 1 (fixture). -/
def qFx2 : QueueState := { tasks := [tFx2, tFx3], nextId := 3 }

/-- A retry-outcome fixture where the engine-level retry of task 2 fails. -/
def okFx : Task → Bool := fun t => t.id != 2

/-- **C3, counterexample.** With two matching failed tasks and a retry
failure on one of them, the batch retry does not return a count at all —
it surfaces the `Promise.all` rejection — even though the other matching
task was still retried. This falsifies the claim that a count is still
returned when a single retry fails. -/
theorem retryAll_batch_failure_no_count :
    (qFx2.getFailed.filter (fun t => t.data.userId == 1)).length = 2
    ∧ (retryAllFailedJobsForUser qFx2 1 okFx).2 = Except.error QueueErr.retryBatchFailed
    ∧ (∀ n : Nat, (retryAllFailedJobsForUser qFx2 1 okFx).2 ≠ Except.ok n)
    ∧ (retryAllFailedJobsForUser qFx2 1 okFx).1.getJob 1 = some (retryEffect tFx2) := by
  refine ⟨by decide, rfl, ?_, by decide⟩
  intro n h
  have h2 : (retryAllFailedJobsForUser qFx2 1 okFx).2
      = Except.error QueueErr.retryBatchFailed := rfl
  rw [h2] at h
  exact Except.noConfusion h

/-- **C3, amended.** The batch retry targets exactly the failed tasks
whose payload owner matches: a matching task whose own retry succeeds is
re-queued even when another task's retry fails, and a non-matching task is
never touched. The count of matching tasks is returned when every matching
retry succeeds; if any single retry fails, the call surfaces an error
instead of a count. -/
theorem retryAll_best_effort_spec (q : QueueState) (userId : Nat) (ok : Task → Bool)
    (jobId : Nat) (t : Task) (hfind : q.getJob jobId = some t) :
    ((t.state = TaskState.failed ∧ t.data.userId = userId ∧ ok t = true) →
      (retryAllFailedJobsForUser q userId ok).1.getJob jobId = some (retryEffect t))
    ∧ (¬(t.state = TaskState.failed ∧ t.data.userId = userId) →
      (retryAllFailedJobsForUser q userId ok).1.getJob jobId = some t)
    ∧ ((∀ u ∈ q.getFailed.filter (fun x => x.data.userId == userId), ok u = true) →
      (retryAllFailedJobsForUser q userId ok).2
        = Except.ok (q.getFailed.filter (fun x => x.data.userId == userId)).length)
    ∧ ((∃ u ∈ q.getFailed.filter (fun x => x.data.userId == userId), ok u = false) →
      (retryAllFailedJobsForUser q userId ok).2 = Except.error QueueErr.retryBatchFailed) := by
  have hpres : ∀ a : Task,
      ((if (a.state == TaskState.failed && a.data.userId == userId) && ok a then
          retryEffect a else a).id == jobId) = (a.id == jobId) := by
    intro a
    by_cases h : ((a.state == TaskState.failed && a.data.userId == userId) && ok a) = true
    · rw [if_pos h]; rfl
    · rw [if_neg h]
  have hmap := find?_map_pres q.tasks (fun a => a.id == jobId)
    (fun a => if (a.state == TaskState.failed && a.data.userId == userId) && ok a then
      retryEffect a else a) t hpres hfind
  refine ⟨?_, ?_, ?_, ?_⟩
  · rintro ⟨h1, h2, h3⟩
    have hcond : ((t.state == TaskState.failed && t.data.userId == userId) && ok t) = true := by
      simp [h1, h2, h3]
    show List.find? _ (List.map _ q.tasks) = _
    rw [hmap]
    show some (if ((t.state == TaskState.failed && t.data.userId == userId) && ok t) = true
      then retryEffect t else t) = some (retryEffect t)
    rw [if_pos hcond]
  · intro hnot
    have hcond : ((t.state == TaskState.failed && t.data.userId == userId) && ok t) = false := by
      rcases Bool.eq_false_or_eq_true (t.state == TaskState.failed && t.data.userId == userId)
        with h | h
      · exact absurd (by simpa [Bool.and_eq_true] using h) hnot
      · simp [h]
    show List.find? _ (List.map _ q.tasks) = _
    rw [hmap]
    show some (if ((t.state == TaskState.failed && t.data.userId == userId) && ok t) = true
      then retryEffect t else t) = some t
    rw [if_neg (by simp [hcond])]
  · intro hall
    have h : (q.getFailed.filter (fun x => x.data.userId == userId)).all ok = true := by
      rw [List.all_eq_true]
      exact hall
    show (if _ then _ else _) = _
    rw [if_pos h]
  · rintro ⟨u, hu, huok⟩
    have h : (q.getFailed.filter (fun x => x.data.userId == userId)).all ok = false := by
      rcases Bool.eq_false_or_eq_true
        ((q.getFailed.filter (fun x => x.data.userId == userId)).all ok) with h | h
      · rw [List.all_eq_true] at h
        rw [h u hu] at huok
        exact absurd huok (by simp)
      · exact h
    show (if _ then _ else _) = _
    rw [if_neg (by simp [h])]

theorem retryAll_best_effort_spec_witness :
    (retryAllFailedJobsForUser qFx2 1 okFx).1.getJob 1 = some (retryEffect tFx2)
    ∧ (retryAllFailedJobsForUser qFx2 1 okFx).2 = Except.error QueueErr.retryBatchFailed :=
  ⟨(retryAll_best_effort_spec qFx2 1 okFx 1 tFx2 (by decide)).1 (by decide),
    (retryAll_best_effort_spec qFx2 1 okFx 1 tFx2 (by decide)).2.2.2 (by decide)⟩

/-! ### C1: file-level retry -/

/-- An old failed attempt for file 1 (fixture). -/
def jFx1 : JobRec :=
  { id := 0, fileId := 1, jobType := some "file-processing", status := JobStatus.failed
    errorMessage := some "boom", startedAt := 1, completedAt := some 1 }

/-- A newer completed attempt for file 1 (fixture): the most recent job. -/
def jFx2 : JobRec :=
  { id := 1, fileId := 1, jobType := some "file-processing", status := JobStatus.completed
    errorMessage := none, startedAt := 2, completedAt := some 3 }

/-- System state where file 1's most recent job is completed but an older
failed job row remains (fixture). -/
def stFx2 : SysState :=
  { db := { files := [fFx1], jobs := [jFx1, jFx2], nextJobId := 2 }
    queue := { tasks := [], nextId := 0 } }

/-- **C1, counterexample.** File 1's most recent job is `completed` — not
`failed` — so the claim demands the no-failed-job error; but because an
older failed job row exists, `retryFailedJob` proceeds and returns a fresh
task id. The code tests for the existence of any failed job, not the
status of the most recent one. -/
theorem retryFileJob_mostRecent_not_failed_still_retries :
    (stFx2.db.mostRecentJobForFile 1).map (fun j => j.status) = some JobStatus.completed
    ∧ (stFx2.db.mostRecentJobForFile 1).map (fun j => j.status) ≠ some JobStatus.failed
    ∧ (retryFileJob stFx2 1 1).2 ≠ Except.error UploadErr.noFailedJobs
    ∧ (retryFileJob stFx2 1 1).2 = Except.ok { jobId := 0, fileId := 1 } := by
  refine ⟨rfl, by decide, ?_, rfl⟩
  intro h
  rw [show (retryFileJob stFx2 1 1).2 = Except.ok { jobId := 0, fileId := 1 } from rfl] at h
  exact Except.noConfusion h

/-- **C1, amended.** For a file found with matching owner, the file-level
retry fails with the no-failed-job error exactly when the file has no
`failed` job row at all (regardless of the status of its most recent job);
otherwise it resets the file's status to `uploaded`, enqueues a fresh task
whose payload carries the same file id, and returns the new task id
together with the file id. -/
theorem retryFileJob_spec (st : SysState) (fileId userId : Nat) (file : FileRec)
    (hfind : st.db.files.find? (fun f => f.id == fileId && f.userId == userId) = some file) :
    ((retryFileJob st fileId userId).2 = Except.error UploadErr.noFailedJobs
      ↔ ∀ j ∈ st.db.jobs, ¬(j.fileId = file.id ∧ j.status = JobStatus.failed))
    ∧ ((∀ j ∈ st.db.jobs, ¬(j.fileId = file.id ∧ j.status = JobStatus.failed)) →
        retryFileJob st fileId userId = (st, Except.error UploadErr.noFailedJobs))
    ∧ ((∃ j ∈ st.db.jobs, j.fileId = file.id ∧ j.status = JobStatus.failed) →
        (retryFileJob st fileId userId).2
          = Except.ok { jobId := st.queue.nextId, fileId := file.id }
        ∧ (((retryFileJob st fileId userId).1.db.findFileById file.id).map (fun f => f.status)
            = some FileStatus.uploaded)
        ∧ (retryFileJob st fileId userId).1.queue.tasks
            = st.queue.tasks
              ++ [({ id := st.queue.nextId,
                     data := { filename := file.originalFilename,
                               filepath := file.storagePath,
                               userId := userId, fileId := some file.id },
                     state := TaskState.waiting, attemptsMade := 0, failedReason := none,
                     finishedOn := none, processedOn := none, opts := defOpts } : Task)]) := by
  have hred : retryFileJob st fileId userId
      = (if (st.db.jobs.filter
            (fun j => j.fileId == file.id && j.status == JobStatus.failed)).isEmpty then
          (st, Except.error UploadErr.noFailedJobs)
        else
          ({ db := st.db.updateFileStatus file.id FileStatus.uploaded,
             queue := (addFileProcessingJob st.queue
               { filename := file.originalFilename, filepath := file.storagePath,
                 userId := userId, fileId := some file.id }).1 },
            Except.ok { jobId := st.queue.nextId, fileId := file.id })) := by
    unfold retryFileJob
    rw [hfind]
    rfl
  have hempty_iff :
      (st.db.jobs.filter
        (fun j => j.fileId == file.id && j.status == JobStatus.failed)).isEmpty = true
      ↔ ∀ j ∈ st.db.jobs, ¬(j.fileId = file.id ∧ j.status = JobStatus.failed) := by
    rw [List.isEmpty_iff, List.filter_eq_nil_iff]
    constructor
    · intro h j hj hc
      exact h j hj (by simp [hc.1, hc.2])
    · intro h j hj hc
      simp only [Bool.and_eq_true, beq_iff_eq] at hc
      exact h j hj hc
  by_cases hem : (st.db.jobs.filter
      (fun j => j.fileId == file.id && j.status == JobStatus.failed)).isEmpty = true
  · refine ⟨?_, fun _ => by rw [hred, if_pos hem], fun hex => ?_⟩
    · rw [hred, if_pos hem]
      simp only [true_iff]
      exact (hempty_iff.mp hem)
    · rcases hex with ⟨j, hj, hc⟩
      exact absurd hc (hempty_iff.mp hem j hj)
  · have hnofail : ¬∀ j ∈ st.db.jobs, ¬(j.fileId = file.id ∧ j.status = JobStatus.failed) :=
      fun h => hem (hempty_iff.mpr h)
    refine ⟨?_, fun h => absurd h hnofail, fun _ => ⟨?_, ?_, ?_⟩⟩
    · rw [hred, if_neg hem]
      constructor
      · intro h
        exact Except.noConfusion h
      · intro h
        exact absurd h hnofail
    · rw [hred, if_neg hem]
    · rw [hred, if_neg hem]
      have hmem : file ∈ st.db.files := List.mem_of_find?_eq_some hfind
      have hsome : (st.db.files.find? (fun f => f.id == file.id)).isSome = true := by
        rw [List.find?_isSome]
        exact ⟨file, hmem, by simp⟩
      rcases Option.isSome_iff_exists.mp hsome with ⟨x, hx⟩
      have hpx := List.find?_some hx
      have hpres : ∀ a : FileRec,
          ((if a.id == file.id then { a with status := FileStatus.uploaded } else a).id
            == file.id) = (a.id == file.id) := by
        intro a
        by_cases h : (a.id == file.id) = true
        · rw [if_pos h]
        · rw [if_neg h]
      have := find?_map_pres st.db.files (fun a => a.id == file.id)
        (fun a => if a.id == file.id then { a with status := FileStatus.uploaded } else a)
        x hpres hx
      show ((st.db.updateFileStatus file.id FileStatus.uploaded).findFileById file.id).map
        (fun f => f.status) = some FileStatus.uploaded
      unfold Db.updateFileStatus Db.findFileById
      rw [this]
      simp [hpx]
    · rw [hred, if_neg hem]
      rfl

theorem retryFileJob_spec_witness :
    ((retryFileJob stFx2 1 1).2 = Except.ok { jobId := 0, fileId := 1 }
      ∧ (((retryFileJob stFx2 1 1).1.db.findFileById 1).map (fun f => f.status)
          = some FileStatus.uploaded))
    ∧ retryFileJob stFx1 1 1 = (stFx1, Except.error UploadErr.noFailedJobs) :=
  ⟨⟨((retryFileJob_spec stFx2 1 1 fFx1 (by decide)).2.2 (by decide)).1,
      ((retryFileJob_spec stFx2 1 1 fFx1 (by decide)).2.2 (by decide)).2.1⟩,
    (retryFileJob_spec stFx1 1 1 fFx1 (by decide)).2.1 (by decide)⟩

/-! ### C7 and C9: the worker's failure path -/

/-- After `updateFileStatus`, looking the file id up yields the new
status, provided a row with that id exists. -/
theorem findFileById_updateFileStatus (db : Db) (fid : Nat) (s : FileStatus)
    (h : ∃ f ∈ db.files, f.id = fid) :
    ((db.updateFileStatus fid s).findFileById fid).map (fun f => f.status) = some s := by
  rcases h with ⟨f, hf, hid⟩
  have hsome : (db.files.find? (fun a => a.id == fid)).isSome = true := by
    rw [List.find?_isSome]
    exact ⟨f, hf, by simp [hid]⟩
  rcases Option.isSome_iff_exists.mp hsome with ⟨x, hx⟩
  have hpx := List.find?_some hx
  have hpres : ∀ a : FileRec,
      ((if a.id == fid then { a with status := s } else a).id == fid) = (a.id == fid) := by
    intro a
    by_cases h2 : (a.id == fid) = true
    · rw [if_pos h2]
    · rw [if_neg h2]
  have hm := find?_map_pres db.files (fun a => a.id == fid)
    (fun a => if a.id == fid then { a with status := s } else a) x hpres hx
  unfold Db.updateFileStatus Db.findFileById
  rw [hm]
  simp [hpx]

/-- The overwrite the worker's failure path applies to the first job row. -/
def failOverwrite (msg : String) (now : Nat) (j : JobRec) : JobRec :=
  { j with status := JobStatus.failed, errorMessage := some msg, completedAt := some now }

/-- What the worker's `catch` block guarantees when the file record is
found: the file's status becomes `failed` and some job row of that file
records the failure message with a completed-at timestamp. -/
theorem workerFailurePath_spec (db : Db) (now : Nat) (data : TaskData) (msg : String)
    (fr : FileRec) (hf : db.findFileByPathUser data.filepath data.userId = some fr) :
    ((workerFailurePath db now data msg).findFileById fr.id).map (fun x => x.status)
      = some FileStatus.failed
    ∧ ∃ j ∈ (workerFailurePath db now data msg).jobs,
        j.fileId = fr.id ∧ j.status = JobStatus.failed ∧ j.errorMessage = some msg
        ∧ j.completedAt = some now := by
  have hmem : fr ∈ db.files := List.mem_of_find?_eq_some hf
  have hfile : ((db.updateFileStatus fr.id FileStatus.failed).findFileById fr.id).map
      (fun x => x.status) = some FileStatus.failed :=
    findFileById_updateFileStatus db fr.id FileStatus.failed ⟨fr, hmem, rfl⟩
  rcases h0 : (db.updateFileStatus fr.id FileStatus.failed).findFirstJobForFile fr.id with
    _ | j0
  · -- no job row yet: the catch creates a fresh failed row
    have hres : workerFailurePath db now data msg
        = ((db.updateFileStatus fr.id FileStatus.failed).createJob fr.id
            (some "file-processing") JobStatus.failed (some msg) now (some now)).1 := by
      unfold workerFailurePath
      simp only [hf, h0]
    rw [hres]
    refine ⟨hfile, ?_⟩
    refine ⟨{ id := db.nextJobId, fileId := fr.id, jobType := some "file-processing",
              status := JobStatus.failed, errorMessage := some msg, startedAt := now,
              completedAt := some now }, ?_, rfl, rfl, rfl, rfl⟩
    show _ ∈ db.jobs ++ [_]
    exact List.mem_append_right _ (List.mem_singleton.mpr rfl)
  · -- a job row exists: the catch overwrites it in place
    have hp := List.find?_some h0
    have hj0mem : j0 ∈ db.jobs := List.mem_of_find?_eq_some h0
    have hres : workerFailurePath db now data msg
        = (db.updateFileStatus fr.id FileStatus.failed).updateJobById j0.id (fun j =>
            { j with status := JobStatus.failed, errorMessage := some msg,
                     completedAt := some now }) := by
      unfold workerFailurePath
      simp only [hf, h0]
    rw [hres]
    refine ⟨hfile, ?_⟩
    refine ⟨failOverwrite msg now j0, ?_, by simpa using hp, rfl, rfl, rfl⟩
    show _ ∈ List.map _ db.jobs
    have hj0 : (fun j => if j.id == j0.id then
        { j with status := JobStatus.failed, errorMessage := some msg,
                 completedAt := some now } else j) j0
        = failOverwrite msg now j0 := by simp [failOverwrite]
    rw [← hj0]
    exact List.mem_map_of_mem _ hj0mem

/-- **C7.** On a processing failure for a task whose file record exists,
the worker invocation sets the file's status to `failed`, finds or creates
a job row for that file carrying status `failed`, the failure message and
a completed-at timestamp, and rethrows the same failure to the queue
rather than swallowing it. -/
theorem worker_failure_records_and_rethrows (db : Db) (now : Nat) (data : TaskData)
    (msg : String) (f : FileRec)
    (hf : db.findFileByPathUser data.filepath data.userId = some f) :
    (handleFileProcessing db now data (Except.error msg)).2 = Except.error msg
    ∧ (((handleFileProcessing db now data (Except.error msg)).1.findFileById f.id).map
        (fun x => x.status) = some FileStatus.failed)
    ∧ ∃ j ∈ (handleFileProcessing db now data (Except.error msg)).1.jobs,
        j.fileId = f.id ∧ j.status = JobStatus.failed ∧ j.errorMessage = some msg
        ∧ j.completedAt = some now := by
  have hres : handleFileProcessing db now data (Except.error msg)
      = (workerFailurePath
          ((db.updateFileStatus f.id FileStatus.processing).createJob f.id
            (some "file-processing") JobStatus.processing none now none).1 now data msg,
        Except.error msg) := by
    unfold handleFileProcessing
    simp only [hf]
  set db2 := ((db.updateFileStatus f.id FileStatus.processing).createJob f.id
    (some "file-processing") JobStatus.processing none now none).1 with hdb2
  have hpres : ∀ a : FileRec,
      ((if a.id == f.id then { a with status := FileStatus.processing } else a).storagePath
          == data.filepath
        && (if a.id == f.id then { a with status := FileStatus.processing } else a).userId
          == data.userId)
      = (a.storagePath == data.filepath && a.userId == data.userId) := by
    intro a
    by_cases h2 : (a.id == f.id) = true
    · rw [if_pos h2]
    · rw [if_neg h2]
  have hm := find?_map_pres db.files
    (fun a => a.storagePath == data.filepath && a.userId == data.userId)
    (fun a => if a.id == f.id then { a with status := FileStatus.processing } else a)
    f hpres hf
  have hgf : (fun a => if a.id == f.id then { a with status := FileStatus.processing }
      else a) f = { f with status := FileStatus.processing } := by simp
  have hf2 : db2.findFileByPathUser data.filepath data.userId
      = some { f with status := FileStatus.processing } := by
    have hstep : List.find?
        (fun a => a.storagePath == data.filepath && a.userId == data.userId)
        (List.map (fun a => if a.id == f.id then { a with status := FileStatus.processing }
          else a) db.files) = some { f with status := FileStatus.processing } := by
      rw [hm, hgf]
    exact hstep
  have hspec := workerFailurePath_spec db2 now data msg
    { f with status := FileStatus.processing } hf2
  rw [hres]
  exact ⟨rfl, hspec.1, hspec.2⟩

/-- An earlier completed attempt for file 1 (fixture). -/
def jFx4 : JobRec :=
  { id := 0, fileId := 1, jobType := some "file-processing", status := JobStatus.completed
    errorMessage := none, startedAt := 1, completedAt := some 2 }

/-- Database with file 1 and one completed job row (fixture). -/
def dbFx1 : Db := { files := [fFx1], jobs := [jFx4], nextJobId := 1 }

/-- The worker task payload matching `fFx1` (fixture). -/
def dataFx : TaskData :=
  { filename := "a.txt", filepath := "uploads/a.txt", userId := 1, fileId := some 1 }

theorem worker_failure_records_and_rethrows_witness :
    (handleFileProcessing dbFx1 7 dataFx (Except.error "bad format")).2
      = Except.error "bad format"
    ∧ (((handleFileProcessing dbFx1 7 dataFx (Except.error "bad format")).1.findFileById
        1).map (fun x => x.status) = some FileStatus.failed)
    ∧ ∃ j ∈ (handleFileProcessing dbFx1 7 dataFx (Except.error "bad format")).1.jobs,
        j.fileId = 1 ∧ j.status = JobStatus.failed ∧ j.errorMessage = some "bad format"
        ∧ j.completedAt = some 7 :=
  worker_failure_records_and_rethrows dbFx1 7 dataFx "bad format" fFx1 (by decide)

/-- **C9.** On the worker's failure path, when at least one job row exists
for the file — whatever that row's status — no new job row is inserted:
the first job row for the file in table order is overwritten in place with
status `failed`, the error message, and a completed-at timestamp. -/
theorem workerFailurePath_overwrites_first_job (db : Db) (now : Nat) (data : TaskData)
    (msg : String) (f : FileRec) (j0 : JobRec)
    (hf : db.findFileByPathUser data.filepath data.userId = some f)
    (hj : db.findFirstJobForFile f.id = some j0) :
    (workerFailurePath db now data msg).jobs.length = db.jobs.length
    ∧ (workerFailurePath db now data msg).findFirstJobForFile f.id
        = some (failOverwrite msg now j0) := by
  have hj1 : (db.updateFileStatus f.id FileStatus.failed).findFirstJobForFile f.id
      = some j0 := hj
  have hres : workerFailurePath db now data msg
      = (db.updateFileStatus f.id FileStatus.failed).updateJobById j0.id (fun j =>
          { j with status := JobStatus.failed, errorMessage := some msg,
                   completedAt := some now }) := by
    unfold workerFailurePath
    simp only [hf, hj1]
  rw [hres]
  constructor
  · exact List.length_map _ _
  · have hpres : ∀ a : JobRec,
        ((if a.id == j0.id then
            { a with status := JobStatus.failed, errorMessage := some msg,
                     completedAt := some now } else a).fileId == f.id)
          = (a.fileId == f.id) := by
      intro a
      by_cases h2 : (a.id == j0.id) = true
      · rw [if_pos h2]
      · rw [if_neg h2]
    have hm := find?_map_pres db.jobs (fun a => a.fileId == f.id)
      (fun a => if a.id == j0.id then
        { a with status := JobStatus.failed, errorMessage := some msg,
                 completedAt := some now } else a) j0 hpres hj
    show List.find? _ (List.map _ db.jobs) = _
    rw [hm]
    simp [failOverwrite]

theorem workerFailurePath_overwrites_first_job_witness :
    (workerFailurePath dbFx1 7 dataFx "late failure").jobs.length = dbFx1.jobs.length
    ∧ (workerFailurePath dbFx1 7 dataFx "late failure").findFirstJobForFile 1
        = some (failOverwrite "late failure" 7 jFx4) :=
  workerFailurePath_overwrites_first_job dbFx1 7 dataFx "late failure" fFx1 jFx4
    (by decide) (by decide)
/-! ### C4: the File-status / Job-status invariant over worker runs -/

/-- Any value the `mostRecent` fold produces is a member of the list, or
was the initial accumulator. -/
theorem mostRecent_go_mem (l : List JobRec) :
    ∀ (acc : Option JobRec) (a : JobRec),
      l.foldl (fun acc j =>
        match acc with
        | none => some j
        | some b => if j.startedAt > b.startedAt then some j else some b) acc = some a →
      a ∈ l ∨ acc = some a := by
  induction l with
  | nil =>
    intro acc a h
    exact Or.inr h
  | cons j l ih =>
    intro acc a h
    rcases ih _ a h with h1 | h1
    · exact Or.inl (List.mem_cons_of_mem _ h1)
    · cases acc with
      | none =>
        have h2 : some j = some a := h1
        cases h2
        exact Or.inl (List.mem_cons_self _ _)
      | some b =>
        have h2 : (if j.startedAt > b.startedAt then some j else some b) = some a := h1
        by_cases hc : j.startedAt > b.startedAt
        · rw [if_pos hc] at h2
          cases h2
          exact Or.inl (List.mem_cons_self _ _)
        · rw [if_neg hc] at h2
          exact Or.inr h2

/-- If every element of `l` started strictly before `x`, the most recent
row of `l ++ [x]` is `x`. -/
theorem mostRecent_snoc (l : List JobRec) (x : JobRec)
    (h : ∀ j ∈ l, j.startedAt < x.startedAt) : mostRecent (l ++ [x]) = some x := by
  unfold mostRecent
  rw [List.foldl_append]
  rcases hacc : l.foldl (fun acc j =>
      match acc with
      | none => some j
      | some b => if j.startedAt > b.startedAt then some j else some b) none with _ | a
  · rw [hacc]
    rfl
  · rw [hacc]
    rcases mostRecent_go_mem l none a hacc with hmem | hmem
    · show (if x.startedAt > a.startedAt then some x else some a) = some x
      rw [if_pos (h a hmem)]
    · cases hmem

/-- `find?` returns the head when every element satisfies the predicate. -/
theorem find?_eq_head?_of_all {α : Type} (p : α → Bool) (l : List α)
    (h : ∀ a ∈ l, p a = true) : l.find? p = l.head? := by
  cases l with
  | nil => rfl
  | cons a l => rw [List.find?_cons_of_pos _ (h a (List.mem_cons_self _ _))]; rfl

/-- The overwrite the worker's success path applies to the job row it
created for the attempt. -/
def completeOverwrite (now : Nat) (j : JobRec) : JobRec :=
  { j with status := JobStatus.completed, completedAt := some now }

/-- The job row a worker invocation at clock `t` creates for file `fid`. -/
def attemptJob (db : Db) (fid : Nat) (t : Nat) : JobRec :=
  { id := db.nextJobId, fileId := fid, jobType := some "file-processing"
    status := JobStatus.processing, errorMessage := none, startedAt := t
    completedAt := none }

/-- The shape of a file's status together with its job rows that worker
runs maintain: a freshly uploaded file has no rows; a processed file's
most recently started row is completed; a failed file's first row is
failed — and when more than one row exists, its most recently started row
is still `processing`, because the failure path overwrites the first row
rather than the latest one. -/
def StatusForm (s : FileStatus) (jobs : List JobRec) : Prop :=
  (s = FileStatus.uploaded ∧ jobs = [])
  ∨ (s = FileStatus.processed ∧ ∃ l x, jobs = l ++ [x] ∧ x.status = JobStatus.completed
      ∧ ∀ j ∈ l, j.startedAt < x.startedAt)
  ∨ (s = FileStatus.failed ∧ ∃ x, jobs = [x] ∧ x.status = JobStatus.failed)
  ∨ (s = FileStatus.failed ∧ ∃ l x h, jobs = l ++ [x] ∧ l.head? = some h
      ∧ h.status = JobStatus.failed ∧ x.status = JobStatus.processing
      ∧ ∀ j ∈ l, j.startedAt < x.startedAt)

/-- Invariant maintained by worker invocations on the task for `f0`: the
files table holds exactly one row for `f0` (status and extracted data
vary); every job row belongs to `f0`, started before the clock and
carries an id below the autoincrement counter; and the file status agrees
with the job rows per `StatusForm`. -/
def RunInv (f0 : FileRec) (t : Nat) (db : Db) : Prop :=
  (∃ s ed, db.files = [{ f0 with status := s, extractedData := ed }]
    ∧ StatusForm s db.jobs)
  ∧ ∀ j ∈ db.jobs, j.fileId = f0.id ∧ j.startedAt < t ∧ j.id < db.nextJobId

/-- One worker invocation preserves the run invariant, advancing the
clock. -/
theorem runInv_step (f0 : FileRec) (data : TaskData) (t : Nat) (db : Db)
    (o : Except String String)
    (hpath : f0.storagePath = data.filepath) (huser : f0.userId = data.userId)
    (hinv : RunInv f0 t db) :
    RunInv f0 (t + 1) (handleFileProcessing db t data o).1 := by
  obtain ⟨⟨s, ed, hfiles, hform⟩, hjobs⟩ := hinv
  have hff : db.findFileByPathUser data.filepath data.userId
      = some { f0 with status := s, extractedData := ed } := by
    unfold Db.findFileByPathUser
    rw [hfiles, List.find?_cons_of_pos _ (by simp [hpath, huser])]
  have h1 : (db.updateFileStatus f0.id FileStatus.processing).files
      = [{ f0 with status := FileStatus.processing, extractedData := ed }] := by
    show List.map _ db.files = _
    rw [hfiles]
    simp
  have hnewmem : ∀ j ∈ db.jobs ++ [attemptJob db f0.id t],
      j.fileId = f0.id ∧ j.startedAt < t + 1 ∧ j.id < db.nextJobId + 1 := by
    intro j hj
    rcases List.mem_append.mp hj with hj | hj
    · rcases hjobs j hj with ⟨ha, hb, hc⟩
      exact ⟨ha, Nat.lt_succ_of_lt hb, Nat.lt_succ_of_lt hc⟩
    · rw [List.mem_singleton.mp hj]
      exact ⟨rfl, Nat.lt_succ_self t, Nat.lt_succ_self _⟩
  cases o with
  | ok d =>
    have hred : (handleFileProcessing db t data (Except.ok d)).1
        = (((db.updateFileStatus f0.id FileStatus.processing).createJob f0.id
              (some "file-processing") JobStatus.processing none t
              none).1.updateFileStatusData f0.id FileStatus.processed
              (some d)).updateJobById db.nextJobId (fun j =>
                { j with status := JobStatus.completed, completedAt := some t }) := by
      unfold handleFileProcessing
      rw [hff]
      rfl
    have hfiles_fin : (handleFileProcessing db t data (Except.ok d)).1.files
        = [{ f0 with status := FileStatus.processed, extractedData := some d }] := by
      rw [hred]
      show List.map _ (List.map _ db.files) = _
      rw [hfiles]
      simp
    have hjobs_fin : (handleFileProcessing db t data (Except.ok d)).1.jobs
        = (db.jobs ++ [attemptJob db f0.id t]).map (fun j =>
            if j.id == db.nextJobId then completeOverwrite t j else j) := by
      rw [hred]
      rfl
    have hnid_fin : (handleFileProcessing db t data (Except.ok d)).1.nextJobId
        = db.nextJobId + 1 := by
      rw [hred]
      rfl
    have hdone : (fun j => if j.id == db.nextJobId then completeOverwrite t j else j)
        (attemptJob db f0.id t) = completeOverwrite t (attemptJob db f0.id t) := by
      simp [attemptJob]
    constructor
    · refine ⟨FileStatus.processed, some d, hfiles_fin, ?_⟩
      refine Or.inr (Or.inl ⟨rfl, db.jobs.map (fun j =>
        if j.id == db.nextJobId then completeOverwrite t j else j),
        completeOverwrite t (attemptJob db f0.id t), ?_, rfl, ?_⟩)
      · rw [hjobs_fin, List.map_append]
        simp only [List.map_cons, List.map_nil, hdone]
      · intro j hj
        rcases List.mem_map.mp hj with ⟨j', hj', rfl⟩
        have hb := (hjobs j' hj').2.1
        by_cases hc : (j'.id == db.nextJobId) = true
        · rw [if_pos hc]
          exact hb
        · rw [if_neg hc]
          exact hb
    · intro j hj
      rw [hjobs_fin] at hj
      rcases List.mem_map.mp hj with ⟨j', hj', rfl⟩
      rcases hnewmem j' hj' with ⟨ha, hb, hc⟩
      rw [hnid_fin]
      by_cases hcond : (j'.id == db.nextJobId) = true
      · rw [if_pos hcond]
        exact ⟨ha, hb, hc⟩
      · rw [if_neg hcond]
        exact ⟨ha, hb, hc⟩
  | error msg =>
    have hredE : (handleFileProcessing db t data (Except.error msg)).1
        = workerFailurePath
            ((db.updateFileStatus f0.id FileStatus.processing).createJob f0.id
              (some "file-processing") JobStatus.processing none t none).1 t data msg := by
      unfold handleFileProcessing
      rw [hff]
    set db2 := ((db.updateFileStatus f0.id FileStatus.processing).createJob f0.id
      (some "file-processing") JobStatus.processing none t none).1 with hdb2
    have h2files : db2.files
        = [{ f0 with status := FileStatus.processing, extractedData := ed }] := h1
    have hff2 : db2.findFileByPathUser data.filepath data.userId
        = some { f0 with status := FileStatus.processing, extractedData := ed } := by
      unfold Db.findFileByPathUser
      rw [h2files, List.find?_cons_of_pos _ (by simp [hpath, huser])]
    have h3files : (db2.updateFileStatus f0.id FileStatus.failed).files
        = [{ f0 with status := FileStatus.failed, extractedData := ed }] := by
      show List.map _ db2.files = _
      rw [h2files]
      simp
    have h3jobs : (db2.updateFileStatus f0.id FileStatus.failed).jobs
        = db.jobs ++ [attemptJob db f0.id t] := rfl
    cases hdj : db.jobs with
    | nil =>
      have hfind : (db2.updateFileStatus f0.id FileStatus.failed).findFirstJobForFile f0.id
          = some (attemptJob db f0.id t) := by
        show List.find? _ (db.jobs ++ [attemptJob db f0.id t]) = _
        rw [hdj]
        simp [attemptJob]
      have hresW : (handleFileProcessing db t data (Except.error msg)).1
          = (db2.updateFileStatus f0.id FileStatus.failed).updateJobById
              (attemptJob db f0.id t).id (fun j =>
                { j with status := JobStatus.failed, errorMessage := some msg,
                         completedAt := some t }) := by
        rw [hredE]
        unfold workerFailurePath
        rw [hff2]
        show (match (db2.updateFileStatus f0.id FileStatus.failed).findFirstJobForFile f0.id
            with
          | some existingJob =>
            (db2.updateFileStatus f0.id FileStatus.failed).updateJobById existingJob.id _
          | none => _) = _
        rw [hfind]
      have hjobs_fin : (handleFileProcessing db t data (Except.error msg)).1.jobs
          = [failOverwrite msg t (attemptJob db f0.id t)] := by
        rw [hresW]
        show List.map _ (db.jobs ++ [attemptJob db f0.id t]) = _
        rw [hdj]
        simp [attemptJob, failOverwrite]
      have hfiles_fin : (handleFileProcessing db t data (Except.error msg)).1.files
          = [{ f0 with status := FileStatus.failed, extractedData := ed }] := by
        rw [hresW]
        exact h3files
      have hnid_fin : (handleFileProcessing db t data (Except.error msg)).1.nextJobId
          = db.nextJobId + 1 := by
        rw [hresW]
        rfl
      constructor
      · refine ⟨FileStatus.failed, ed, hfiles_fin, ?_⟩
        exact Or.inr (Or.inr (Or.inl ⟨rfl,
          failOverwrite msg t (attemptJob db f0.id t), hjobs_fin, rfl⟩))
      · intro j hj
        rw [hjobs_fin, List.mem_singleton] at hj
        rw [hj, hnid_fin]
        exact ⟨rfl, Nat.lt_succ_self t, Nat.lt_succ_self _⟩
    | cons j0 rest =>
      have hj0props := hjobs j0 (by rw [hdj]; exact List.mem_cons_self _ _)
      have hfind : (db2.updateFileStatus f0.id FileStatus.failed).findFirstJobForFile f0.id
          = some j0 := by
        show List.find? _ (db.jobs ++ [attemptJob db f0.id t]) = _
        rw [hdj]
        show List.find? _ (j0 :: (rest ++ [attemptJob db f0.id t])) = _
        rw [List.find?_cons_of_pos _ (by simp [hj0props.1])]
      have hresW : (handleFileProcessing db t data (Except.error msg)).1
          = (db2.updateFileStatus f0.id FileStatus.failed).updateJobById
              j0.id (fun j =>
                { j with status := JobStatus.failed, errorMessage := some msg,
                         completedAt := some t }) := by
        rw [hredE]
        unfold workerFailurePath
        rw [hff2]
        show (match (db2.updateFileStatus f0.id FileStatus.failed).findFirstJobForFile f0.id
            with
          | some existingJob =>
            (db2.updateFileStatus f0.id FileStatus.failed).updateJobById existingJob.id _
          | none => _) = _
        rw [hfind]
      have hnotnew : ((attemptJob db f0.id t).id == j0.id) = false := by
        have hlt : j0.id < db.nextJobId := hj0props.2.2
        simp [attemptJob]
        omega
      have hhead : (if (j0.id == j0.id) = true then
          { j0 with status := JobStatus.failed, errorMessage := some msg,
                    completedAt := some t } else j0) = failOverwrite msg t j0 := by
        simp [failOverwrite]
      have hlast : (if ((attemptJob db f0.id t).id == j0.id) = true then
          { attemptJob db f0.id t with status := JobStatus.failed,
                                       errorMessage := some msg,
                                       completedAt := some t }
          else attemptJob db f0.id t) = attemptJob db f0.id t := by
        rw [if_neg]
        simp [hnotnew]
      have hjobs_fin : (handleFileProcessing db t data (Except.error msg)).1.jobs
          = (failOverwrite msg t j0
              :: rest.map (fun j => if j.id == j0.id then
                   { j with status := JobStatus.failed, errorMessage := some msg,
                            completedAt := some t } else j))
            ++ [attemptJob db f0.id t] := by
        rw [hresW]
        show List.map _ (db.jobs ++ [attemptJob db f0.id t]) = _
        rw [hdj]
        simp only [List.map_append, List.map_cons, List.map_nil, hhead, hlast]
      have hfiles_fin : (handleFileProcessing db t data (Except.error msg)).1.files
          = [{ f0 with status := FileStatus.failed, extractedData := ed }] := by
        rw [hresW]
        exact h3files
      have hnid_fin : (handleFileProcessing db t data (Except.error msg)).1.nextJobId
          = db.nextJobId + 1 := by
        rw [hresW]
        rfl
      constructor
      · refine ⟨FileStatus.failed, ed, hfiles_fin, ?_⟩
        refine Or.inr (Or.inr (Or.inr ⟨rfl,
          failOverwrite msg t j0
            :: rest.map (fun j => if j.id == j0.id then
                 { j with status := JobStatus.failed, errorMessage := some msg,
                          completedAt := some t } else j),
          attemptJob db f0.id t, failOverwrite msg t j0, hjobs_fin, rfl, rfl, rfl, ?_⟩))
        intro j hj
        show j.startedAt < t
        rcases List.mem_cons.mp hj with hj | hj
        · rw [hj]
          exact hj0props.2.1
        · rcases List.mem_map.mp hj with ⟨j', hj', rfl⟩
          have hb : j'.startedAt < t :=
            (hjobs j' (by rw [hdj]; exact List.mem_cons_of_mem _ hj')).2.1
          by_cases hc : (j'.id == j0.id) = true
          · rw [if_pos hc]
            exact hb
          · rw [if_neg hc]
            exact hb
      · intro j hj
        rw [hjobs_fin] at hj
        rw [hnid_fin]
        have hmemprops : ∀ j' ∈ db.jobs,
            ((if (j'.id == j0.id) = true then
                { j' with status := JobStatus.failed, errorMessage := some msg,
                          completedAt := some t } else j').fileId = f0.id
              ∧ (if (j'.id == j0.id) = true then
                  { j' with status := JobStatus.failed, errorMessage := some msg,
                            completedAt := some t } else j').startedAt < t + 1
              ∧ (if (j'.id == j0.id) = true then
                  { j' with status := JobStatus.failed, errorMessage := some msg,
                            completedAt := some t } else j').id < db.nextJobId + 1) := by
          intro j' hj'
          rcases hjobs j' hj' with ⟨ha, hb, hc⟩
          by_cases hcond : (j'.id == j0.id) = true
          · rw [if_pos hcond]
            exact ⟨ha, Nat.lt_succ_of_lt hb, Nat.lt_succ_of_lt hc⟩
          · rw [if_neg hcond]
            exact ⟨ha, Nat.lt_succ_of_lt hb, Nat.lt_succ_of_lt hc⟩
        rcases List.mem_append.mp hj with hj | hj
        · rcases List.mem_cons.mp hj with hj | hj
          · rw [hj]
            have hm0 := hmemprops j0 (by rw [hdj]; exact List.mem_cons_self _ _)
            rw [if_pos (by simp)] at hm0
            exact hm0
          · rcases List.mem_map.mp hj with ⟨j', hj', rfl⟩
            exact hmemprops j' (by rw [hdj]; exact List.mem_cons_of_mem _ hj')
        · rw [List.mem_singleton.mp hj]
          exact ⟨rfl, Nat.lt_succ_self t, Nat.lt_succ_self _⟩

/-- The run invariant holds along any worker run. -/
theorem runInv_workerRun (f0 : FileRec) (data : TaskData)
    (hpath : f0.storagePath = data.filepath) (huser : f0.userId = data.userId) :
    ∀ (os : List (Except String String)) (t : Nat) (db : Db),
      RunInv f0 t db → RunInv f0 (t + os.length) (workerRun db data t os) := by
  intro os
  induction os with
  | nil =>
    intro t db h
    simpa using h
  | cons o os ih =>
    intro t db h
    have h1 := runInv_step f0 data t db o hpath huser h
    have h2 := ih (t + 1) _ h1
    show RunInv f0 (t + (os.length + 1))
      (workerRun (handleFileProcessing db t data o).1 data (t + 1) os)
    have heq : t + (os.length + 1) = (t + 1) + os.length := by omega
    rw [heq]
    exact h2

/-- A worker run on the task of a freshly uploaded file: the database
starts with just that file row and no job rows. -/
def runFromUpload (f0 : FileRec) (data : TaskData) (t0 : Nat)
    (os : List (Except String String)) : Db :=
  workerRun { files := [f0], jobs := [], nextJobId := 0 } data t0 os

/-- **C4, amended.** Starting from a freshly uploaded file, after any
sequence of worker invocations: the file is `processed` iff its most
recent job row is `completed`; a `failed` most recent job row implies the
file is `failed`; and a `failed` file implies its FIRST job row is
`failed` — but not necessarily its most recent one, which remains
`processing` whenever the failing attempt was not the file's first. -/
theorem workerRun_status_agreement (f0 : FileRec) (data : TaskData) (t0 : Nat)
    (os : List (Except String String))
    (hpath : f0.storagePath = data.filepath) (huser : f0.userId = data.userId)
    (hstatus : f0.status = FileStatus.uploaded) :
    (((runFromUpload f0 data t0 os).findFileById f0.id).map (fun f => f.status)
        = some FileStatus.processed
      ↔ ((runFromUpload f0 data t0 os).mostRecentJobForFile f0.id).map (fun j => j.status)
        = some JobStatus.completed)
    ∧ (((runFromUpload f0 data t0 os).mostRecentJobForFile f0.id).map (fun j => j.status)
          = some JobStatus.failed
        → ((runFromUpload f0 data t0 os).findFileById f0.id).map (fun f => f.status)
          = some FileStatus.failed)
    ∧ (((runFromUpload f0 data t0 os).findFileById f0.id).map (fun f => f.status)
          = some FileStatus.failed
        → ((runFromUpload f0 data t0 os).findFirstJobForFile f0.id).map (fun j => j.status)
          = some JobStatus.failed) := by
  have hinv0 : RunInv f0 t0 { files := [f0], jobs := [], nextJobId := 0 } := by
    constructor
    · refine ⟨FileStatus.uploaded, f0.extractedData, ?_, Or.inl ⟨rfl, rfl⟩⟩
      show [f0] = _
      rw [← hstatus]
    · intro j hj
      exact absurd hj (List.not_mem_nil j)
  obtain ⟨⟨s, ed, hfiles, hform⟩, hjobs⟩ :=
    runInv_workerRun f0 data hpath huser os t0 _ hinv0
  have hfiles' : (runFromUpload f0 data t0 os).files
      = [{ f0 with status := s, extractedData := ed }] := hfiles
  have hjobs' : ∀ j ∈ (runFromUpload f0 data t0 os).jobs, j.fileId = f0.id :=
    fun j hj => (hjobs j hj).1
  have hform' : StatusForm s (runFromUpload f0 data t0 os).jobs := hform
  have hfid : (runFromUpload f0 data t0 os).findFileById f0.id
      = some { f0 with status := s, extractedData := ed } := by
    unfold Db.findFileById
    rw [hfiles', List.find?_cons_of_pos _ (by simp)]
  have hmr : (runFromUpload f0 data t0 os).mostRecentJobForFile f0.id
      = mostRecent (runFromUpload f0 data t0 os).jobs := by
    unfold Db.mostRecentJobForFile Db.jobsForFile
    rw [List.filter_eq_self.mpr (fun j hj => by simp [hjobs' j hj])]
  have hfj : (runFromUpload f0 data t0 os).findFirstJobForFile f0.id
      = (runFromUpload f0 data t0 os).jobs.head? := by
    unfold Db.findFirstJobForFile
    exact find?_eq_head?_of_all _ _ (fun j hj => by simp [hjobs' j hj])
  rcases hform' with ⟨hs, hnil⟩ | ⟨hs, l, x, hsnoc, hx, hsort⟩
    | ⟨hs, x, hone, hx⟩ | ⟨hs, l, x, h, hsnoc, hheadeq, hh, hx, hsort⟩
  · refine ⟨⟨?_, ?_⟩, ?_, ?_⟩
    · intro hc
      rw [hfid] at hc
      simp [hs] at hc
    · intro hc
      rw [hmr, hnil] at hc
      simp [mostRecent] at hc
    · intro hc
      rw [hmr, hnil] at hc
      simp [mostRecent] at hc
    · intro hc
      rw [hfid] at hc
      simp [hs] at hc
  · have hmrx : mostRecent (runFromUpload f0 data t0 os).jobs = some x := by
      rw [hsnoc]
      exact mostRecent_snoc l x hsort
    refine ⟨⟨?_, ?_⟩, ?_, ?_⟩
    · intro _
      rw [hmr, hmrx]
      simp [hx]
    · intro _
      rw [hfid]
      simp [hs]
    · intro hc
      rw [hmr, hmrx] at hc
      simp [hx] at hc
    · intro hc
      rw [hfid] at hc
      simp [hs] at hc
  · have hmrx : mostRecent (runFromUpload f0 data t0 os).jobs = some x := by
      rw [hone]
      rfl
    refine ⟨⟨?_, ?_⟩, ?_, ?_⟩
    · intro hc
      rw [hfid] at hc
      simp [hs] at hc
    · intro hc
      rw [hmr, hmrx] at hc
      simp [hx] at hc
    · intro _
      rw [hfid]
      simp [hs]
    · intro _
      rw [hfj, hone]
      simp [hx]
  · rcases l with _ | ⟨h1, l'⟩
    · simp at hheadeq
    · have hh1 : h1 = h := by
        have := hheadeq
        simp at this
        exact this
      have hmrx : mostRecent (runFromUpload f0 data t0 os).jobs = some x := by
        rw [hsnoc]
        exact mostRecent_snoc _ x hsort
      refine ⟨⟨?_, ?_⟩, ?_, ?_⟩
      · intro hc
        rw [hfid] at hc
        simp [hs] at hc
      · intro hc
        rw [hmr, hmrx] at hc
        simp [hx] at hc
      · intro _
        rw [hfid]
        simp [hs]
      · intro _
        rw [hfj, hsnoc]
        show ((h1 :: (l' ++ [x])).head?).map (fun j => j.status) = _
        rw [List.head?_cons]
        simp [hh1, hh]

/-- A freshly uploaded file of user 1 (fixture). -/
def fFx2 : FileRec :=
  { id := 1, userId := 1, originalFilename := "a.txt", storagePath := "uploads/a.txt"
    status := FileStatus.uploaded, extractedData := none }

/-- Two consecutive failing worker attempts on file 1 (fixture). -/
def dbRunFx : Db := runFromUpload fFx2 dataFx 1 [Except.error "a", Except.error "b"]

/-- **C4, counterexample.** After two failing attempts the file's status
is `failed`, but the most recent job row for it has status `processing`,
not `failed`: the second attempt created a fresh `processing` row and the
failure path then overwrote the FIRST row instead of the most recent one.
This falsifies the claimed equivalence between `File.status == 'failed'`
and the most recent job being `failed`. -/
theorem worker_failed_file_mostRecent_processing :
    ((dbRunFx.findFileById 1).map (fun f => f.status) = some FileStatus.failed)
    ∧ ((dbRunFx.mostRecentJobForFile 1).map (fun j => j.status)
        = some JobStatus.processing)
    ∧ ((dbRunFx.mostRecentJobForFile 1).map (fun j => j.status)
        ≠ some JobStatus.failed) := by
  refine ⟨rfl, rfl, ?_⟩
  intro hc
  rw [show (dbRunFx.mostRecentJobForFile 1).map (fun j => j.status)
      = some JobStatus.processing from rfl] at hc
  exact absurd (Option.some.inj hc) (by decide)

theorem workerRun_status_agreement_witness :
    (((runFromUpload fFx2 dataFx 1 [Except.error "a", Except.error "b"]).findFileById
          fFx2.id).map (fun f => f.status) = some FileStatus.processed
      ↔ ((runFromUpload fFx2 dataFx 1
          [Except.error "a", Except.error "b"]).mostRecentJobForFile fFx2.id).map
          (fun j => j.status) = some JobStatus.completed)
    ∧ (((runFromUpload fFx2 dataFx 1
          [Except.error "a", Except.error "b"]).mostRecentJobForFile fFx2.id).map
          (fun j => j.status) = some JobStatus.failed
        → ((runFromUpload fFx2 dataFx 1 [Except.error "a", Except.error "b"]).findFileById
            fFx2.id).map (fun f => f.status) = some FileStatus.failed)
    ∧ (((runFromUpload fFx2 dataFx 1 [Except.error "a", Except.error "b"]).findFileById
          fFx2.id).map (fun f => f.status) = some FileStatus.failed
        → ((runFromUpload fFx2 dataFx 1
            [Except.error "a", Except.error "b"]).findFirstJobForFile fFx2.id).map
            (fun j => j.status) = some JobStatus.failed) :=
  workerRun_status_agreement fFx2 dataFx 1 [Except.error "a", Except.error "b"]
    rfl rfl rfl

end Billeasy
